import Mathlib

/-!
Verification development for `part3.py`, a binary sentiment-classification
training pipeline (tokenizer, data augmentation, recurrent classifier,
train/evaluate loop).  Python functions are shallowly embedded as Lean
functions; randomness (`np.random.uniform`, `np.random.randint`) is modelled
by explicit draw streams passed as arguments, with `randint(0, n)` realised
as `draw % n` so every draw lies in `[0, n)`.
-/

namespace Part3

/-! ## Tokenizer (`PreProcessing.tokenizer`, part3.py lines 53-56)

    def tokenizer(text):
        string = text.replace('<br />', ' ')
        string = "".join([ c if c.isalnum() else " " for c in string ])
        return string.split()

Python `str.replace` replaces every occurrence left-to-right without overlap;
Python `str.split()` (no argument) splits on whitespace runs and discards
empty tokens.  Both are given structurally recursive embeddings on `List Char`
so they evaluate inside the kernel. -/

/-- Fuel-indexed helper for `replaceList`; the fuel is structural so the
function reduces inside the kernel.  One unit of fuel is spent per consumed
character, so `s.length` fuel always suffices. -/
def replaceAux (pat rep : List Char) : ℕ → List Char → List Char
  | 0, s => s
  | _ + 1, [] => []
  | fuel + 1, c :: rest =>
    if pat ≠ [] ∧ pat.isPrefixOf (c :: rest) then
      rep ++ replaceAux pat rep fuel ((c :: rest).drop pat.length)
    else
      c :: replaceAux pat rep fuel rest

/-- Left-to-right non-overlapping replacement of the pattern `pat` by `rep`
(the semantics of Python `str.replace`). -/
def replaceList (pat rep s : List Char) : List Char :=
  replaceAux pat rep s.length s

/-- Split at every whitespace character, keeping empty fragments (they are
filtered afterwards, which is what Python `str.split()` does in one step). -/
def splitOnWs : List Char → List (List Char)
  | [] => [[]]
  | c :: rest =>
    if c.isWhitespace then
      [] :: splitOnWs rest
    else
      match splitOnWs rest with
      | [] => [[c]]
      | t :: ts => (c :: t) :: ts

/-- `PreProcessing.tokenizer` from part3.py: replace the literal `"<br />"`
by a space, map every non-alphanumeric character to a space, split on
whitespace discarding empty tokens.  No case folding happens here. -/
def tokenizer (text : String) : List String :=
  let s1 := replaceList "<br />".data " ".data text.data
  let s2 := s1.map (fun c => if c.isAlphanum then c else ' ')
  ((splitOnWs s2).filter (fun t => t ≠ [])).map (fun t => String.mk t)

/-- The field is declared with `lower=True` (part3.py line 58): the
vocabulary lookup lowercases every token. -/
def fieldLower (tokens : List String) : List String :=
  tokens.map (fun t => String.mk (t.data.map Char.toLower))

theorem tokenizer_tokens_ne_empty (text : String) :
    ∀ t ∈ tokenizer text, t ≠ "" := by
  intro t ht
  simp only [tokenizer, List.mem_map, List.mem_filter] at ht
  obtain ⟨l, ⟨_, hl⟩, rfl⟩ := ht
  intro hcon
  apply of_decide_eq_true hl
  have := congrArg String.data hcon
  simpa using this

/-- **C6**: the tokenizer strips `"<br />"`, maps non-alphanumeric characters
to spaces and splits on whitespace discarding empty tokens, so every produced
token is non-empty; `tokenize("") = []`, and
`tokenize("<br />Good! Movie--") = ["Good", "Movie"]` (no case folding), which
the `lower=True` field lookup turns into `["good", "movie"]`. -/
theorem c6_tokenizer_behaviour :
    tokenizer "" = [] ∧
    tokenizer "<br />Good! Movie--" = ["Good", "Movie"] ∧
    fieldLower (tokenizer "<br />Good! Movie--") = ["good", "movie"] ∧
    ∀ text : String, ∀ t ∈ tokenizer text, t ≠ "" :=
  ⟨by decide, by decide, by decide, tokenizer_tokens_ne_empty⟩

/-! ## Data augmentation (part3.py lines 62-96)

`np.random.uniform(0, 1)` is modelled by a stream `ℕ → ℚ` of draws consumed
in call order, `np.random.randint(0, n)` by `draw % n` (so each integer draw
lies in `[0, n)`, as the numpy call guarantees). -/

/-- Python `" ".join(result)` from part3.py lines 72 and 84. -/
def pyJoin : List String → String
  | [] => ""
  | [w] => w
  | w :: ws => w ++ " " ++ pyJoin ws

/-- The `for i in words` loop of `rand_del` (lines 67-69): word `i` is kept
exactly when its uniform draw exceeds `prob`. -/
def rand_del_keep (prob : ℚ) (draws : ℕ → ℚ) : ℕ → List String → List String
  | _, [] => []
  | i, w :: ws =>
    if prob < draws i then w :: rand_del_keep prob draws (i + 1) ws
    else rand_del_keep prob draws (i + 1) ws

/-- `rand_del` before the final join (lines 62-71): single-word inputs are
returned unchanged; if every word was dropped, fall back to one randomly
chosen word of the original list (`words[np.random.randint(0, len(words))]`,
modelled by index `fb % words.length`). -/
def rand_del_list (words : List String) (prob : ℚ) (draws : ℕ → ℚ) (fb : ℕ) :
    List String :=
  if words.length = 1 then words
  else if rand_del_keep prob draws 0 words = [] then
    [words.getD (fb % words.length) ""]
  else
    rand_del_keep prob draws 0 words

/-- `rand_del` (lines 62-73), including the final `" ".join(result)`. -/
def rand_del (words : List String) (prob : ℚ) (draws : ℕ → ℚ) (fb : ℕ) : String :=
  pyJoin (rand_del_list words prob draws fb)

/-- The simultaneous assignment
`result[r1], result[r2] = result[r2], result[r1]` (line 82). -/
def listSwap (l : List String) (i j : ℕ) : List String :=
  (l.set i (l.getD j "")).set j (l.getD i "")

/-- The inner `for j in range(3)` loop of `rand_swap` (lines 79-83): draw up
to three candidate second indices, swap at the first one different from `r1`
and break; if all three candidates equal `r1` the attempt is a no-op.
Returns the updated list and the next unused position of the draw stream. -/
def trySwap (draws : ℕ → ℕ) (len r1 : ℕ) : ℕ → ℕ → List String → List String × ℕ
  | 0, k, res => (res, k)
  | j + 1, k, res =>
    let r2 := draws k % len
    if r1 ≠ r2 then (listSwap res r1 r2, k + 1)
    else trySwap draws len r1 j (k + 1) res

/-- The outer `for i in range(n)` loop of `rand_swap` (lines 77-83). -/
def rand_swap_loop (draws : ℕ → ℕ) (len : ℕ) : ℕ → ℕ → List String → List String × ℕ
  | 0, k, res => (res, k)
  | n + 1, k, res =>
    rand_swap_loop draws len n
      (trySwap draws len (draws k % len) 3 (k + 1) res).2
      (trySwap draws len (draws k % len) 3 (k + 1) res).1

/-- `rand_swap` before the final join (lines 75-83): `result = words.copy()`
followed by `n` swap attempts on `result`. -/
def rand_swap_list (words : List String) (n : ℕ) (draws : ℕ → ℕ) : List String :=
  (rand_swap_loop draws words.length n 0 words).1

/-- `rand_swap` (lines 75-85), including the final `" ".join(result)`. -/
def rand_swap (words : List String) (n : ℕ) (draws : ℕ → ℕ) : String :=
  pyJoin (rand_swap_list words n draws)

/-- The mutable state of a `rand_swap` call: the caller's list `words` and
the local copy `result` made on line 76.  Every subscript assignment in the
source targets `result`; `words` is only read. -/
structure SwapState where
  words : List String
  result : List String

/-- Running the body of `rand_swap` on the state: the loop rewrites `result`
while `words` is never assigned. -/
def rand_swap_run (n : ℕ) (draws : ℕ → ℕ) (s : SwapState) : SwapState :=
  { words := s.words
    result := (rand_swap_loop draws s.words.length n 0 s.result).1 }

/-- `max(1, int(0.2 * len(text)))` from part3.py line 92.  Python `int`
truncates toward zero; for every list length below `2 ^ 50` the
double-precision product `0.2 * L` truncates to `⌊L / 5⌋`, realised here as
natural division. -/
def augSwapN (L : ℕ) : ℕ := max 1 (L / 5)

/-- A synthetic example produced by `aug_sentence`: the augmented text string
and the label it was built with (`data.Example.fromlist([rd/rs, label], ...)`,
lines 93-94). -/
structure AugExample where
  text : String
  label : String
deriving DecidableEq

/-- `aug_sentence` (part3.py lines 87-96): two loop iterations, each
producing one random-deletion example and one random-swap example, both
carrying the input label.  Each iteration consumes fresh random draws,
modelled by indexing the streams with the iteration number. -/
def aug_sentence (text : List String) (label : String)
    (delDraws : ℕ → ℕ → ℚ) (delFb : ℕ → ℕ) (swapDraws : ℕ → ℕ → ℕ) :
    List AugExample :=
  ((List.range 2).map (fun i =>
    [AugExample.mk (rand_del text (3 / 10) (delDraws i) (delFb i)) label,
     AugExample.mk (rand_swap text (augSwapN text.length) (swapDraws i)) label])).flatten

theorem rand_del_keep_subset (prob : ℚ) (draws : ℕ → ℚ) :
    ∀ (i : ℕ) (ws : List String), ∀ w ∈ rand_del_keep prob draws i ws, w ∈ ws := by
  intro i ws
  induction ws generalizing i with
  | nil => simp [rand_del_keep]
  | cons x xs ih =>
      intro w hw
      simp only [rand_del_keep] at hw
      split at hw
      · rcases List.mem_cons.mp hw with hP | hP
        · exact hP ▸ List.mem_cons_self x xs
        · exact List.mem_cons_of_mem x (ih (i + 1) w hP)
      · exact List.mem_cons_of_mem x (ih (i + 1) w hw)

theorem rand_del_list_ne_nil (words : List String) (prob : ℚ) (draws : ℕ → ℚ)
    (fb : ℕ) (h : words ≠ []) : rand_del_list words prob draws fb ≠ [] := by
  unfold rand_del_list
  split
  · exact h
  · split
    · simp
    · assumption

theorem rand_del_list_subset (words : List String) (prob : ℚ) (draws : ℕ → ℚ)
    (fb : ℕ) (h : words ≠ []) :
    ∀ w ∈ rand_del_list words prob draws fb, w ∈ words := by
  intro w hw
  unfold rand_del_list at hw
  split at hw
  · exact hw
  · split at hw
    · have hlen : fb % words.length < words.length :=
        Nat.mod_lt fb (List.length_pos.mpr h)
      rw [List.mem_singleton.mp hw, List.getD_eq_getElem words "" hlen]
      exact List.getElem_mem hlen
    · exact rand_del_keep_subset prob draws 0 words w hw

theorem pyJoin_ne_empty (l : List String) (hne : l ≠ [])
    (hw : ∀ w ∈ l, w ≠ "") : pyJoin l ≠ "" := by
  match l with
  | [] => exact absurd rfl hne
  | [w] => exact hw w (List.mem_singleton.mpr rfl)
  | w :: x :: ws =>
      show w ++ " " ++ pyJoin (x :: ws) ≠ ""
      intro hc
      have hdata := congrArg String.data hc
      simp only [String.data_append] at hdata
      have : (' ' : Char) ∈ ([] : List Char) := by
        rw [← hdata]
        exact List.mem_append_left _ (List.mem_append_right _ (by simp [String.data]))
      simp at this

/-- **C3**: for every non-empty word list and every draw stream, `rand_del`
keeps a non-empty list of words, all taken from the original list (the
all-dropped case falls back to one original word); a single-word input is
returned unchanged; and the joined output string is non-empty whenever the
input words are. -/
theorem c3_rand_del_never_empty (words : List String) (prob : ℚ)
    (draws : ℕ → ℚ) (fb : ℕ) (h : words ≠ []) :
    rand_del_list words prob draws fb ≠ [] ∧
    (∀ w ∈ rand_del_list words prob draws fb, w ∈ words) ∧
    (∀ w, words = [w] → rand_del words prob draws fb = w) ∧
    ((∀ w ∈ words, w ≠ "") → rand_del words prob draws fb ≠ "") := by
  refine ⟨rand_del_list_ne_nil words prob draws fb h,
          rand_del_list_subset words prob draws fb h, ?_, ?_⟩
  · intro w hw
    subst hw
    simp [rand_del, rand_del_list, pyJoin]
  · intro hws
    exact pyJoin_ne_empty _ (rand_del_list_ne_nil words prob draws fb h)
      (fun w hw => hws w (rand_del_list_subset words prob draws fb h w hw))

/-- Witness for `c3_rand_del_never_empty` at a concrete input. -/
theorem c3_rand_del_never_empty_witness :
    (["good", "movie"] : List String) ≠ [] ∧
    (rand_del_list ["good", "movie"] (3 / 10) (fun _ => 1 / 2) 0 ≠ [] ∧
     (∀ w ∈ rand_del_list ["good", "movie"] (3 / 10) (fun _ => 1 / 2) 0,
        w ∈ (["good", "movie"] : List String)) ∧
     (∀ w, (["good", "movie"] : List String) = [w] →
        rand_del ["good", "movie"] (3 / 10) (fun _ => 1 / 2) 0 = w) ∧
     ((∀ w ∈ (["good", "movie"] : List String), w ≠ "") →
        rand_del ["good", "movie"] (3 / 10) (fun _ => 1 / 2) 0 ≠ "")) :=
  ⟨by decide, c3_rand_del_never_empty ["good", "movie"] (3 / 10) (fun _ => 1 / 2) 0
    (by decide)⟩

theorem cons_get_set_perm {α : Type} :
    ∀ (l : List α) (m : ℕ) (hm : m < l.length) (x : α),
      List.Perm (l.get ⟨m, hm⟩ :: l.set m x) (x :: l) := by
  intro l
  induction l with
  | nil => intro m hm x; simp at hm
  | cons a t ih =>
      intro m hm x
      cases m with
      | zero => exact List.Perm.swap x a t
      | succ k =>
          have hk : k < t.length := by simpa using hm
          have step1 : List.Perm (t.get ⟨k, hk⟩ :: a :: t.set k x)
              (a :: t.get ⟨k, hk⟩ :: t.set k x) :=
            List.Perm.swap a (t.get ⟨k, hk⟩) (t.set k x)
          have step2 : List.Perm (a :: t.get ⟨k, hk⟩ :: t.set k x) (a :: x :: t) :=
            List.Perm.cons a (ih k hk x)
          have step3 : List.Perm (a :: x :: t) (x :: a :: t) := List.Perm.swap x a t
          exact (step1.trans step2).trans step3

theorem set_set_perm_of_lt {α : Type} :
    ∀ (l : List α) (i j : ℕ) (hi : i < l.length) (hj : j < l.length),
      List.Perm ((l.set i (l.get ⟨j, hj⟩)).set j (l.get ⟨i, hi⟩)) l := by
  intro l
  induction l with
  | nil => intro i j hi _; simp at hi
  | cons a t ih =>
      intro i j hi hj
      cases i with
      | zero =>
          cases j with
          | zero => simp
          | succ m =>
              have hm : m < t.length := by simpa using hj
              simpa using cons_get_set_perm t m hm a
      | succ k =>
          cases j with
          | zero =>
              have hk : k < t.length := by simpa using hi
              simpa using cons_get_set_perm t k hk a
          | succ m =>
              have hk : k < t.length := by simpa using hi
              have hm : m < t.length := by simpa using hj
              simpa using List.Perm.cons a (ih k m hk hm)

theorem listSwap_perm (l : List String) (i j : ℕ) (hi : i < l.length)
    (hj : j < l.length) : List.Perm (listSwap l i j) l := by
  unfold listSwap
  rw [List.getD_eq_getElem l "" hj, List.getD_eq_getElem l "" hi]
  exact set_set_perm_of_lt l i j hi hj

theorem trySwap_fst_perm (draws : ℕ → ℕ) (len r1 : ℕ) (hr1 : r1 < len)
    (hlen : 0 < len) :
    ∀ (j k : ℕ) (res : List String), res.length = len →
      List.Perm (trySwap draws len r1 j k res).1 res := by
  intro j
  induction j with
  | zero => intro k res _; exact List.Perm.refl res
  | succ j ih =>
      intro k res hres
      simp only [trySwap]
      split
      · have hr2 : draws k % len < len := Nat.mod_lt (draws k) hlen
        exact listSwap_perm res r1 (draws k % len) (by rw [hres]; exact hr1)
          (by rw [hres]; exact hr2)
      · exact ih (k + 1) res hres

theorem rand_swap_loop_fst_perm (draws : ℕ → ℕ) (len : ℕ) (hlen : 0 < len) :
    ∀ (n k : ℕ) (res : List String), res.length = len →
      List.Perm (rand_swap_loop draws len n k res).1 res := by
  intro n
  induction n with
  | zero => intro k res _; exact List.Perm.refl res
  | succ n ih =>
      intro k res hres
      simp only [rand_swap_loop]
      have h1 : List.Perm (trySwap draws len (draws k % len) 3 (k + 1) res).1 res :=
        trySwap_fst_perm draws len (draws k % len) (Nat.mod_lt (draws k) hlen)
          hlen 3 (k + 1) res hres
      have hlen' : (trySwap draws len (draws k % len) 3 (k + 1) res).1.length = len := by
        rw [h1.length_eq, hres]
      exact (ih _ _ hlen').trans h1

/-- **C4**: for every non-empty word list, attempt count and draw stream,
`rand_swap` returns a permutation of the input (same multiset of words, same
length), and the state model shows the caller's `words` list is never
mutated — all swaps target the local copy `result`. -/
theorem c4_rand_swap_is_permutation (words : List String) (n : ℕ)
    (draws : ℕ → ℕ) (h : words ≠ []) :
    List.Perm (rand_swap_list words n draws) words ∧
    (rand_swap_list words n draws).length = words.length ∧
    ∀ s : SwapState, (rand_swap_run n draws s).words = s.words := by
  have hlen : 0 < words.length := List.length_pos.mpr h
  have hperm := rand_swap_loop_fst_perm draws words.length hlen n 0 words rfl
  exact ⟨hperm, hperm.length_eq, fun _ => rfl⟩

/-- Witness for `c4_rand_swap_is_permutation` at a concrete input. -/
theorem c4_rand_swap_is_permutation_witness :
    (["a", "b", "c"] : List String) ≠ [] ∧
    (List.Perm (rand_swap_list ["a", "b", "c"] 2 (fun k => k)) ["a", "b", "c"] ∧
     (rand_swap_list ["a", "b", "c"] 2 (fun k => k)).length =
       (["a", "b", "c"] : List String).length ∧
     ∀ s : SwapState, (rand_swap_run 2 (fun k => k) s).words = s.words) :=
  ⟨by decide, c4_rand_swap_is_permutation ["a", "b", "c"] 2 (fun k => k) (by decide)⟩

/-- **C2**: `aug_sentence` produces exactly 4 synthetic examples per input —
the loop body runs twice and each run contributes one random-deletion and one
random-swap example — and every produced example carries the input label. -/
theorem c2_aug_sentence_four_examples (text : List String) (label : String)
    (delDraws : ℕ → ℕ → ℚ) (delFb : ℕ → ℕ) (swapDraws : ℕ → ℕ → ℕ) :
    aug_sentence text label delDraws delFb swapDraws =
      [AugExample.mk (rand_del text (3 / 10) (delDraws 0) (delFb 0)) label,
       AugExample.mk (rand_swap text (augSwapN text.length) (swapDraws 0)) label,
       AugExample.mk (rand_del text (3 / 10) (delDraws 1) (delFb 1)) label,
       AugExample.mk (rand_swap text (augSwapN text.length) (swapDraws 1)) label] ∧
    (aug_sentence text label delDraws delFb swapDraws).length = 4 ∧
    ∀ e ∈ aug_sentence text label delDraws delFb swapDraws, e.label = label := by
  have haug : aug_sentence text label delDraws delFb swapDraws =
      [AugExample.mk (rand_del text (3 / 10) (delDraws 0) (delFb 0)) label,
       AugExample.mk (rand_swap text (augSwapN text.length) (swapDraws 0)) label,
       AugExample.mk (rand_del text (3 / 10) (delDraws 1) (delFb 1)) label,
       AugExample.mk (rand_swap text (augSwapN text.length) (swapDraws 1)) label] := rfl
  refine ⟨haug, by rw [haug]; rfl, ?_⟩
  intro e he
  rw [haug] at he
  rcases List.mem_cons.mp he with rfl | he
  · rfl
  rcases List.mem_cons.mp he with rfl | he
  · rfl
  rcases List.mem_cons.mp he with rfl | he
  · rfl
  rcases List.mem_cons.mp he with rfl | he
  · rfl
  · simp at he

/-- The attempt count asserted by the claim: `max(1, round(0.2 * L))`. -/
def augSwapN_claimed (L : ℕ) : ℕ := max 1 (round ((0.2 : ℚ) * L)).toNat

/-- Counter of the outer-loop iterations (swap attempts) `rand_swap`
executes, instrumenting `rand_swap_loop`. -/
def rand_swap_attempts (draws : ℕ → ℕ) (len : ℕ) : ℕ → ℕ → List String → ℕ
  | 0, _, _ => 0
  | n + 1, k, res =>
    rand_swap_attempts draws len n
      (trySwap draws len (draws k % len) 3 (k + 1) res).2
      (trySwap draws len (draws k % len) 3 (k + 1) res).1 + 1

theorem rand_swap_attempts_eq (draws : ℕ → ℕ) (len : ℕ) :
    ∀ (n k : ℕ) (res : List String), rand_swap_attempts draws len n k res = n := by
  intro n
  induction n with
  | zero => intro k res; rfl
  | succ n ih => intro k res; simp only [rand_swap_attempts, ih]

/-- **C5 counterexample**: on an 8-token sentence the augmenter's swap call
performs `max(1, int(0.2 * 8)) = 1` attempt, while the claimed formula
`max(1, round(0.2 * 8))` gives 2. -/
theorem c5_attempts_round_counterexample :
    rand_swap_attempts (fun _ => 0) 8 (augSwapN 8) 0
      ["a", "b", "c", "d", "e", "f", "g", "h"] = 1 ∧
    augSwapN_claimed 8 = 2 ∧
    rand_swap_attempts (fun _ => 0) 8 (augSwapN 8) 0
      ["a", "b", "c", "d", "e", "f", "g", "h"] ≠ augSwapN_claimed 8 := by
  have h1 : rand_swap_attempts (fun _ => 0) 8 (augSwapN 8) 0
      ["a", "b", "c", "d", "e", "f", "g", "h"] = 1 := by
    rw [rand_swap_attempts_eq]
    decide
  have h2 : augSwapN_claimed 8 = 2 := by
    unfold augSwapN_claimed
    norm_num [round_eq]
    rfl
  exact ⟨h1, h2, by rw [h1, h2]; decide⟩

/-- **C5 (amended)**: the swap call performs exactly
`max(1, ⌊0.2 · L⌋)` attempts (Python `int` truncates toward zero, it does not
round), and within one attempt the three candidate second indices leave the
list unchanged when all of them equal the first index. -/
theorem c5_amended_swap_attempts (draws : ℕ → ℕ) (len L k : ℕ)
    (res : List String) (r1 : ℕ)
    (h1 : draws k % len = r1) (h2 : draws (k + 1) % len = r1)
    (h3 : draws (k + 2) % len = r1) :
    (∀ (k' : ℕ) (res' : List String),
      rand_swap_attempts draws len (augSwapN L) k' res' = max 1 (L / 5)) ∧
    trySwap draws len r1 3 k res = (res, k + 3) := by
  constructor
  · intro k' res'
    rw [rand_swap_attempts_eq]
    rfl
  · show trySwap draws len r1 (2 + 1) k res = (res, k + 3)
    rw [trySwap, h1, if_neg (by simp)]
    show trySwap draws len r1 (1 + 1) (k + 1) res = (res, k + 3)
    rw [trySwap, h2, if_neg (by simp)]
    show trySwap draws len r1 (0 + 1) (k + 2) res = (res, k + 3)
    rw [trySwap, h3, if_neg (by simp)]
    show (res, k + 2 + 1) = (res, k + 3)
    rfl

/-- Witness for `c5_amended_swap_attempts` at a concrete input. -/
theorem c5_amended_swap_attempts_witness :
    ((fun _ : ℕ => 0) 0 % 2 = 0 ∧ (fun _ : ℕ => 0) (0 + 1) % 2 = 0 ∧
     (fun _ : ℕ => 0) (0 + 2) % 2 = 0) ∧
    ((∀ (k' : ℕ) (res' : List String),
       rand_swap_attempts (fun _ => 0) 2 (augSwapN 8) k' res' = max 1 (8 / 5)) ∧
     trySwap (fun _ => 0) 2 0 3 0 ["a", "b"] = (["a", "b"], 0 + 3)) :=
  ⟨⟨by decide, by decide, by decide⟩,
   c5_amended_swap_attempts (fun _ => 0) 2 8 0 ["a", "b"] 0 (by decide) (by decide)
     (by decide)⟩

/-! ## Network (part3.py lines 13-40)

Tensors are modelled as nested rational lists.  The numeric behaviour of
`tnn.LSTM`, `tnn.Dropout` and `tnn.Linear` is framework code external to the
repository, so the submodules enter the model as abstract functions;
`Network.forward` composes them exactly as the source body does. -/

/-- The tensors returned by `self.lstm(input)` (line 37): the per-step
outputs and the final hidden and cell states `(hn, cn)`. -/
structure LSTMResult where
  out : List (List (List ℚ))
  hn : List (List (List ℚ))
  cn : List (List (List ℚ))

/-- The submodules built in `Network.__init__` (lines 17-33). -/
structure Network where
  lstm : List (List (List ℚ)) → LSTMResult
  dropout : List (List ℚ) → List (List ℚ)
  fc : List ℚ → List ℚ

/-- `Network.forward` (lines 35-40): run the LSTM, concatenate the last two
slices `hn[-2]` and `hn[-1]` of the final hidden state along dim 1 (per batch
row), apply dropout and the linear head, and keep the last column of
`view(batchSize, -1)` (the last entry of each output row).  The `length`
argument is part of the signature but never read by the body. -/
def Network.forward (net : Network) (input : List (List (List ℚ)))
    (length : List ℕ) : List ℚ :=
  let res := net.lstm input
  let hn := res.hn
  let hidden := net.dropout
    (List.zipWith (fun a b => a ++ b)
      (hn.getD (hn.length - 2) []) (hn.getD (hn.length - 1) []))
  (hidden.map net.fc).map (fun row => row.getD (row.length - 1) 0)

/-- **C9**: `Network.forward` never reads its `length` argument — for any
two supplied length vectors the output is identical, so the recurrent
encoder processes padded positions unmasked and the result is independent of
the true lengths. -/
theorem c9_forward_ignores_length (net : Network)
    (input : List (List (List ℚ))) (len1 len2 : List ℕ) :
    net.forward input len1 = net.forward input len2 := rfl

/-! ## Training and evaluation loops (part3.py lines 137-197)

Label and logit tensors are rational lists; an evaluation batch is a pair of
the logit list produced by the network and the raw label list. -/

/-- The label preparation shared by both loops (lines 142-145 and 184-187):
`batch.label` is cast to float and then `labels -= 1`. -/
def shiftLabels (raw : List ℚ) : List ℚ := raw.map (fun x => x - 1)

/-- The argument pair handed to `criterion(output, labels)` on line 154: the
network output together with the decremented labels. -/
def trainLossArgs (output : List ℚ) (raw : List ℚ) : List ℚ × List ℚ :=
  (output, shiftLabels raw)

/-- `torch.round(torch.sigmoid(logit))` (lines 190-191).  The sigmoid maps a
logit into `(0, 1)` and exceeds `1 / 2` exactly on positive logits, and
`torch.round` rounds half to even so `round(sigmoid 0) = round(0.5) = 0`:
the hard prediction is `1` exactly on positive logits. -/
def predicted (logit : ℚ) : ℚ := if 0 < logit then 1 else 0

/-- One evaluation batch (lines 184-193): decrement the labels, predict from
the logits, and count exact matches (`torch.sum(labels == predicted)`). -/
def evalBatchCorrect (logits raw : List ℚ) : ℕ :=
  (((shiftLabels raw).zip (logits.map predicted)).filter
    (fun p => p.1 = p.2)).length

/-- The whole `with torch.no_grad()` loop (lines 181-193): `num_correct`
accumulates the match counts over all batches of the held-out loader. -/
def evalNumCorrect (batches : List (List ℚ × List ℚ)) : ℕ :=
  (batches.map (fun b => evalBatchCorrect b.1 b.2)).sum

/-- `accuracy = 100 * num_correct / len(dev)` (line 195). -/
def evalAccuracy (batches : List (List ℚ × List ℚ)) (lenDev : ℕ) : ℚ :=
  100 * evalNumCorrect batches / lenDev

/-- **C1**: in the training loop the loss target is the raw labels
decremented by exactly 1, in the evaluation loop predictions are compared to
the raw labels decremented by exactly 1, and when every raw label is 1 or 2
every target is 0 or 1. -/
theorem c1_labels_shifted_by_one (output raw logits : List ℚ)
    (hraw : ∀ x ∈ raw, x = 1 ∨ x = 2) :
    (trainLossArgs output raw).2 = raw.map (fun x => x - 1) ∧
    evalBatchCorrect logits raw =
      (((raw.map (fun x => x - 1)).zip (logits.map predicted)).filter
        (fun p => p.1 = p.2)).length ∧
    ∀ y ∈ (trainLossArgs output raw).2, y = 0 ∨ y = 1 := by
  refine ⟨rfl, rfl, ?_⟩
  intro y hy
  simp only [trainLossArgs, shiftLabels, List.mem_map] at hy
  obtain ⟨x, hx, rfl⟩ := hy
  rcases hraw x hx with rfl | rfl
  · left; norm_num
  · right; norm_num

/-- Witness for `c1_labels_shifted_by_one` at a concrete input. -/
theorem c1_labels_shifted_by_one_witness :
    (∀ x ∈ ([1, 2] : List ℚ), x = 1 ∨ x = 2) ∧
    ((trainLossArgs [] [1, 2]).2 = ([1, 2] : List ℚ).map (fun x => x - 1) ∧
     evalBatchCorrect [3, -1] [1, 2] =
       (((([1, 2] : List ℚ).map (fun x => x - 1)).zip
         (([3, -1] : List ℚ).map predicted)).filter
         (fun p => p.1 = p.2)).length ∧
     ∀ y ∈ (trainLossArgs [] [1, 2]).2, y = 0 ∨ y = 1) :=
  ⟨by decide, c1_labels_shifted_by_one [] [1, 2] [3, -1] (by decide)⟩

theorem evalBatchCorrect_le (logits raw : List ℚ) :
    evalBatchCorrect logits raw ≤ raw.length := by
  unfold evalBatchCorrect
  calc (((shiftLabels raw).zip (logits.map predicted)).filter
          (fun p => p.1 = p.2)).length
      ≤ ((shiftLabels raw).zip (logits.map predicted)).length :=
        List.length_filter_le _ _
    _ ≤ (shiftLabels raw).length := by
        rw [List.length_zip]; exact min_le_left _ _
    _ = raw.length := List.length_map raw _

theorem evalNumCorrect_le (batches : List (List ℚ × List ℚ)) :
    evalNumCorrect batches ≤ (batches.map (fun b => b.2.length)).sum := by
  unfold evalNumCorrect
  induction batches with
  | nil => simp
  | cons b bs ih =>
      simp only [List.map_cons, List.sum_cons]
      exact Nat.add_le_add (evalBatchCorrect_le b.1 b.2) ih

/-- **C7**: the evaluator sums exact matches between the rounded sigmoid
predictions and the shifted labels over all held-out batches and reports
`100 * matches / total_examples`; when the batches cover exactly the
`len(dev)` examples, the reported value lies in `[0, 100]`. -/
theorem c7_accuracy_in_range (batches : List (List ℚ × List ℚ)) (lenDev : ℕ)
    (hsizes : (batches.map (fun b => b.2.length)).sum = lenDev)
    (hpos : 0 < lenDev) :
    0 ≤ evalAccuracy batches lenDev ∧ evalAccuracy batches lenDev ≤ 100 := by
  have hle : evalNumCorrect batches ≤ lenDev := hsizes ▸ evalNumCorrect_le batches
  have hposQ : (0 : ℚ) < lenDev := by exact_mod_cast hpos
  constructor
  · unfold evalAccuracy
    positivity
  · unfold evalAccuracy
    rw [div_le_iff₀ hposQ]
    have : (evalNumCorrect batches : ℚ) ≤ (lenDev : ℚ) := by exact_mod_cast hle
    nlinarith

/-- Witness for `c7_accuracy_in_range` at a concrete input. -/
theorem c7_accuracy_in_range_witness :
    (([([2, -3], [2, 1])] : List (List ℚ × List ℚ)).map
       (fun b => b.2.length)).sum = 2 ∧ 0 < 2 ∧
    (0 ≤ evalAccuracy [([2, -3], [2, 1])] 2 ∧
     evalAccuracy [([2, -3], [2, 1])] 2 ≤ 100) :=
  ⟨by decide, by decide, c7_accuracy_in_range [([2, -3], [2, 1])] 2 (by decide)
    (by decide)⟩

/-! ## Checkpointing (part3.py lines 170-177) and dataset construction
(lines 118-131) -/

/-- A compute device (`torch.device`, lines 111, 173). -/
inductive Device
  | cpu
  | cuda (idx : ℕ)
deriving DecidableEq

/-- The checkpoint contents: a flat map from parameter name to tensor
values (`net.state_dict()`). -/
def StateDict : Type := List (String × List ℚ)

/-- Modelled from the spec: `torch.save` (lines 171, 176) is library code
outside this repository; §6 specifies the checkpoint file as "a persisted
mapping from parameter name to tensor values", so the file contents are the
flat parameter map itself. -/
def torchSave (sd : StateDict) : StateDict := sd

/-- Modelled from the spec: `torch.load(..., map_location=...)` (line 175)
is library code outside this repository; §6 requires the file to be
"loadable on any device and independent of the device used to produce it",
so loading returns the stored parameter map whatever the target device. -/
def torchLoad (file : StateDict) (mapLocation : Device) : StateDict := file

/-- **C8**: saving the trained parameter map and loading it on a different
device yields exactly the saved parameters, so a classifier rebuilt from the
loaded parameters produces identical outputs to the original on every fixed
input batch. -/
theorem c8_checkpoint_roundtrip (sd : StateDict) (dev : Device)
    (build : StateDict → Network) (input : List (List (List ℚ)))
    (lens : List ℕ) :
    torchLoad (torchSave sd) dev = sd ∧
    (build (torchLoad (torchSave sd) dev)).forward input lens =
      (build sd).forward input lens :=
  ⟨rfl, rfl⟩

/-- Lines 121-125 of `main`: `train.examples.extend(dev.examples)`, then
every example of the extended list is augmented and the augmented examples
are appended as well; the result is what `trainLoader` iterates. -/
def buildTrainingSet {α : Type} (trainExs devExs : List α)
    (aug : α → List α) : List α :=
  (trainExs ++ devExs) ++ ((trainExs ++ devExs).map aug).flatten

/-- **C10**: every example of the dev split used by the evaluator is also a
member of the training multiset handed to the optimizer — the dev examples
are folded into the training examples before augmentation and training. -/
theorem c10_dev_subset_training (α : Type) (trainExs devExs : List α)
    (aug : α → List α) (e : α) (he : e ∈ devExs) :
    e ∈ buildTrainingSet trainExs devExs aug := by
  unfold buildTrainingSet
  exact List.mem_append_left _ (List.mem_append_right _ he)

/-- Witness for `c10_dev_subset_training` at a concrete input. -/
theorem c10_dev_subset_training_witness :
    (5 : ℕ) ∈ [5] ∧ (5 : ℕ) ∈ buildTrainingSet [1] [5] (fun _ => []) :=
  ⟨by decide, c10_dev_subset_training ℕ [1] [5] (fun _ => []) 5 (by decide)⟩

end Part3
